import Mathlib

/-!
Verification of the exam-analyzer pipeline: a shallow embedding of the
subtopic matcher, the chunk orchestrator and the response normalizer,
with theorems settling the behavioural claims about them.

External collaborators are modelled as parameters:
* the `rapidfuzz` similarity primitive `fuzz.token_sort_ratio` becomes an
  abstract `score : String → String → ℚ` (the library guarantees a result
  in [0,100]); a faithful executable model `tokenSortRatio` is also
  provided for concrete instantiations;
* the reference-data files become a function
  `load_reference : exam_type → subject → List RefEntry` (an absent file
  loads as the empty list, exactly as the source's `load_reference`
  returns `[]` on a missing path);
* the external classifier call becomes a function from a chunk to its
  already-JSON-decoded response.
-/

/-- One row of a reference-data file: a taxonomy entry. -/
structure RefEntry where
  subtopic_number : String
  subtopic_name : String
  unit_name : String
  deriving DecidableEq, Repr

/-- The result dictionary returned by `match_subtopic` (both variants). -/
structure MatchResult where
  subtopic_number : String
  matched_name : Option String
  confidence : ℚ
  unit_name : Option String
  deriving DecidableEq, Repr

/-- The environment of external collaborators of the matcher: the
similarity primitive and the loaded reference data. -/
structure Env where
  score : String → String → ℚ
  load_reference : String → String → List RefEntry

/-- Longest common subsequence length (fuel-indexed so the recursion is
structural), the core of the indel similarity used by `rapidfuzz`'s
ratio. -/
def lcsAux : Nat → List Char → List Char → Nat
  | 0, _, _ => 0
  | _ + 1, [], _ => 0
  | _ + 1, _ :: _, [] => 0
  | fuel + 1, a :: as, b :: bs =>
    if a = b then lcsAux fuel as bs + 1
    else max (lcsAux fuel (a :: as) bs) (lcsAux fuel as (b :: bs))

/-- Longest common subsequence length of two character lists. -/
def lcs (l₁ l₂ : List Char) : Nat :=
  lcsAux (l₁.length + l₂.length) l₁ l₂

/-- Python's default whitespace class (the characters stripped and
split on by `str.strip()` and `str.split()`). -/
def isPyWs (c : Char) : Bool :=
  c = ' ' || c = '\t' || c = '\n' || c = '\r' || c = '\x0b' || c = '\x0c'

/-- Model of Python's `str.lower()`. -/
def strLower (s : String) : String :=
  String.mk (s.data.map Char.toLower)

/-- Model of Python's `str.upper()`. -/
def strUpper (s : String) : String :=
  String.mk (s.data.map Char.toUpper)

/-- Model of Python's slice `s[:n]`. -/
def strTake (s : String) (n : Nat) : String :=
  String.mk (s.data.take n)

/-- Model of Python's slice `s[n:]`. -/
def strDrop (s : String) (n : Nat) : String :=
  String.mk (s.data.drop n)

/-- Model of Python's `str.strip()`: drop whitespace from both ends. -/
def strTrim (s : String) : String :=
  String.mk (((s.data.dropWhile isPyWs).reverse.dropWhile isPyWs).reverse)

/-- Split a character list at whitespace (runs produce empty pieces,
filtered out below). -/
def splitWs : List Char → List (List Char)
  | [] => [[]]
  | c :: cs =>
    if isPyWs c then [] :: splitWs cs
    else
      match splitWs cs with
      | [] => [[c]]
      | t :: ts => (c :: t) :: ts

/-- Whitespace tokenization as done by `str.split()`: split on
whitespace, discarding empty pieces. -/
def tokens (s : String) : List String :=
  ((splitWs s.data).filter (fun t => t ≠ [])).map String.mk

/-- Stable insertion into an ascending list of strings (code-point
lexicographic order, as Python compares strings). -/
def insertAsc (s : String) : List String → List String
  | [] => [s]
  | t :: ts => if t.data < s.data then t :: insertAsc s ts else s :: t :: ts

/-- Insertion sort of string tokens, ascending. -/
def sortTokens : List String → List String
  | [] => []
  | t :: ts => insertAsc t (sortTokens ts)

/-- Joining tokens with single spaces, as `" ".join(...)`. -/
def joinTokens : List String → List Char
  | [] => []
  | [t] => t.data
  | t :: t' :: ts => t.data ++ ' ' :: joinTokens (t' :: ts)

/-- Token-sort preprocessing: split on whitespace, sort, rejoin. -/
def sortJoin (s : String) : String :=
  String.mk (joinTokens (sortTokens (tokens s)))

/-- Model of `rapidfuzz.fuzz.token_sort_ratio`: both strings are
token-sorted, then compared by normalized indel similarity scaled to
[0,100] (`200·lcs/(|a|+|b|)`, and 100 for two empty strings). -/
def tokenSortRatio (a b : String) : ℚ :=
  let a' := sortJoin a
  let b' := sortJoin b
  if a'.length + b'.length = 0 then 100
  else Rat.divInt (200 * (lcs a'.data b'.data : Int))
    ((a'.length : Int) + (b'.length : Int))

namespace SubtopicMatcher

/-- `FUZZY_MATCH_THRESHOLD` of the subtopic-matcher module. -/
def FUZZY_MATCH_THRESHOLD : ℚ := 60

/-- The candidate list built by `match_subtopic`: each reference row
contributes its bare subtopic name and `"unit_name: subtopic_name"`. -/
def candidatesOf (refs : List RefEntry) : List (RefEntry × String) :=
  refs.flatMap (fun r => [(r, r.subtopic_name), (r, r.unit_name ++ ": " ++ r.subtopic_name)])

/-- The query list built by `match_subtopic`: the bare subtopic,
`"topic: subtopic"` and `"topic subtopic"`. -/
def queriesOf (ai_subtopic ai_topic : String) : List String :=
  [ai_subtopic, ai_topic ++ ": " ++ ai_subtopic, ai_topic ++ " " ++ ai_subtopic]

/-- The best-so-far update of the scan: strictly better scores replace
the current best match. -/
def bestStep (sc : α → ℚ) (rf : α → RefEntry) (best : Option RefEntry × ℚ) (x : α) :
    Option RefEntry × ℚ :=
  if best.2 < sc x then (some (rf x), sc x) else best

/-- `match_subtopic` of the subtopic-matcher module: scans every
(query, candidate) pair, lowercased, keeping the single best score; an
empty taxonomy short-circuits to the N/A result. Note: the final branch
returns the best entry whenever one was recorded, without consulting
`FUZZY_MATCH_THRESHOLD`. -/
def match_subtopic (env : Env) (ai_subtopic ai_topic exam_type subject : String) :
    MatchResult :=
  let refs := env.load_reference exam_type subject
  if refs.isEmpty then
    { subtopic_number := "N/A", matched_name := none, confidence := 0, unit_name := none }
  else
    let candidates := candidatesOf refs
    let best := (queriesOf ai_subtopic ai_topic).foldl
      (fun best query => candidates.foldl
        (bestStep (fun cand => env.score (strLower query) (strLower cand.2)) Prod.fst) best)
      (none, 0)
    match best with
    | (some r, s) =>
      { subtopic_number := r.subtopic_number, matched_name := some r.subtopic_name,
        confidence := s, unit_name := some r.unit_name }
    | (none, _) =>
      { subtopic_number := "N/A", matched_name := none, confidence := 0, unit_name := none }

/-- The sibling exam type used by the cross-exam fallback of
`match_all`: `"NEET"` for `"JEE"`, `"JEE"` for everything else. -/
def sibling (exam_type : String) : String :=
  if exam_type = "JEE" then "NEET" else "JEE"

/-- The input fields of a question dictionary that `match_all` reads. -/
structure MQIn where
  subject : Option String
  topic : Option String
  subtopic_name : Option String
  deriving DecidableEq, Repr

/-- A question dictionary after `match_all` attached the four match
fields. -/
structure MQOut where
  q : MQIn
  subtopic_number : String
  match_confidence : ℚ
  matched_subtopic_name : Option String
  matched_unit_name : Option String
  deriving DecidableEq, Repr

/-- Attaching a match result to a question, as the four assignments at
the end of `match_all`'s loop body. -/
def attachResult (q : MQIn) (r : MatchResult) : MQOut :=
  { q := q, subtopic_number := r.subtopic_number, match_confidence := r.confidence,
    matched_subtopic_name := r.matched_name, matched_unit_name := r.unit_name }

/-- The per-question body of `match_all`: primary match against the
declared exam type, one cross-exam fallback when the primary confidence
is below the threshold, adopted only on a strictly higher score. -/
def matchOne (env : Env) (exam_type : String) (q : MQIn) : MQOut :=
  let subject := q.subject.getD "Mathematics"
  let result := match_subtopic env (q.subtopic_name.getD "") (q.topic.getD "") exam_type subject
  let result :=
    if result.confidence < FUZZY_MATCH_THRESHOLD then
      let alt := sibling exam_type
      let alt_result :=
        match_subtopic env (q.subtopic_name.getD "") (q.topic.getD "") alt subject
      if alt_result.confidence > result.confidence then alt_result else result
    else result
  attachResult q result

/-- `match_all`: applies the per-question matching to every question. -/
def match_all (env : Env) (questions : List MQIn) (exam_type : String) : List MQOut :=
  questions.map (matchOne env exam_type)

end SubtopicMatcher

namespace AppPy

/-- `match_subtopic` of the monolithic `app.py`: same scan (in
ref-outer order), but the matched entry is returned only when the best
score reaches 60; below that the result is N/A while `confidence` still
carries the best score. -/
def match_subtopic (env : Env) (ai_subtopic ai_topic exam_type subject : String) :
    MatchResult :=
  let refs := env.load_reference exam_type subject
  if refs.isEmpty then
    { subtopic_number := "N/A", matched_name := none, confidence := 0, unit_name := none }
  else
    let best := refs.foldl
      (fun best r =>
        [r.subtopic_name, r.unit_name ++ ": " ++ r.subtopic_name].foldl
          (fun best text =>
            [ai_subtopic, ai_topic ++ ": " ++ ai_subtopic, ai_topic ++ " " ++ ai_subtopic].foldl
              (SubtopicMatcher.bestStep (fun query => env.score (strLower query) (strLower text))
                (fun _ => r)) best)
          best)
      (none, 0)
    match best with
    | (some r, s) =>
      if 60 ≤ s then
        { subtopic_number := r.subtopic_number, matched_name := some r.subtopic_name,
          confidence := s, unit_name := some r.unit_name }
      else
        { subtopic_number := "N/A", matched_name := none, confidence := s, unit_name := none }
    | (none, s) =>
      { subtopic_number := "N/A", matched_name := none, confidence := s, unit_name := none }

end AppPy

namespace AiAnalyzer

/-- Python's `str.capitalize()`: first character uppercased, the rest
lowercased. -/
def pyCapitalize (s : String) : String :=
  strUpper (strTake s 1) ++ strLower (strDrop s 1)

/-- A question element of the decoded `questions` array, before
normalization: each tracked key is optional (absent = `none`). -/
structure RawJsonQ where
  sno : Option Int
  question_text : Option String
  subject : Option String
  topic : Option String
  subtopic_name : Option String
  difficulty : Option String
  question_label : Option String
  deriving DecidableEq, Repr

/-- A question after `parse_ai_response`'s per-question loop: every
required key present. -/
structure NormQ where
  sno : Int
  question_text : String
  subject : String
  topic : String
  subtopic_name : String
  difficulty : String
  question_label : String
  deriving DecidableEq, Repr, Inhabited

/-- The missing-field fill of `parse_ai_response`: every absent
required key is set to `"Unknown"`, except `sno` which is set to `0`;
present keys are untouched. -/
def fillMissing (q : RawJsonQ) : RawJsonQ :=
  { q with
    sno := some (q.sno.getD 0),
    question_text := some (q.question_text.getD "Unknown"),
    subject := some (q.subject.getD "Unknown"),
    topic := some (q.topic.getD "Unknown"),
    subtopic_name := some (q.subtopic_name.getD "Unknown"),
    difficulty := some (q.difficulty.getD "Unknown") }

/-- The loop body of `parse_ai_response` over one question: fill
missing fields, normalize `difficulty` (strip, capitalize, coerce
anything outside \x7bEasy, Moderate, Difficult\x7d to Moderate), and
synthesize `question_label` from the (filled) serial number when
absent. -/
def processQuestion (q : RawJsonQ) : NormQ :=
  let f := fillMissing q
  let sno := f.sno.getD 0
  let diff := pyCapitalize (strTrim (f.difficulty.getD ""))
  { sno := sno,
    question_text := f.question_text.getD "Unknown",
    subject := f.subject.getD "Unknown",
    topic := f.topic.getD "Unknown",
    subtopic_name := f.subtopic_name.getD "Unknown",
    difficulty :=
      if diff = "Easy" ∨ diff = "Moderate" ∨ diff = "Difficult" then diff else "Moderate",
    question_label := f.question_label.getD ("Q." ++ toString sno) }

/-- The per-question normalization pass of `parse_ai_response` over the
whole decoded `questions` array. -/
def parseQuestions (qs : List RawJsonQ) : List NormQ :=
  qs.map processQuestion

/-- A classifier response after JSON decoding: the reported exam type
(absent = `none`) and the decoded `questions` array. -/
structure RawResponse where
  exam_type : Option String
  questions : List RawJsonQ
  deriving DecidableEq, Repr

/-- `chunk_pages`: successive slices of at most `k` page images (the
source's stride-`k` range loop; `k = 0` would raise in the source and
is modelled as producing no chunks). -/
def chunk_pages (l : List String) (k : Nat) : List (List String) :=
  if k = 0 then []
  else if l.isEmpty then []
  else l.take k :: chunk_pages (l.drop k) k
termination_by l.length
decreasing_by
  rename_i hk hl
  have : l ≠ [] := by simpa [List.isEmpty_iff] using hl
  cases l with
  | nil => exact absurd rfl this
  | cons a as => simp [List.length_drop]; omega

/-- The python-truthiness test `not detected_exam or detected_exam ==
"UNKNOWN"` guarding exam-type adoption in `analyze`. -/
def needsDetection (d : Option String) : Bool :=
  d.isNone || d == some "" || d == some "UNKNOWN"

/-- One iteration of `analyze`'s chunk loop: adopt the chunk's reported
exam type when none is held yet, and append the chunk's normalized
questions. -/
def analyzeStep (classify : List String → RawResponse)
    (acc : List NormQ × Option String) (c : List String) : List NormQ × Option String :=
  let parsed := classify c
  let detected :=
    if needsDetection acc.2 then some (parsed.exam_type.getD "UNKNOWN") else acc.2
  (acc.1 ++ parseQuestions parsed.questions, detected)

/-- The renumbering applied when more than one chunk was processed:
the i-th question (0-based) gets serial number `i+1` and label
`"Q." ++ (i+1)`. -/
def renumber (qs : List NormQ) : List NormQ :=
  qs.enum.map (fun p =>
    { p.2 with sno := (p.1 : Int) + 1, question_label := "Q." ++ toString (p.1 + 1) })

/-- The result of `analyze` (the time and model fields of the source
carry no logic and are omitted). -/
structure AnalysisResult where
  exam_type : Option String
  questions : List NormQ
  chunks_processed : Nat
  deriving DecidableEq, Repr

/-- `analyze` of the vision analyzer: chunk the pages, classify each
chunk in order (the external call and JSON decode are the `classify`
collaborator), concatenate the normalized per-chunk questions, adopt a
reported exam type while none is held, and renumber exactly when more
than one chunk was produced. -/
def analyze (page_images : List String) (classify : List String → RawResponse)
    (exam_type : Option String) : AnalysisResult :=
  let chunks := chunk_pages page_images 8
  let res := chunks.foldl (analyzeStep classify) ([], exam_type)
  let final := if 1 < chunks.length then renumber res.1 else res.1
  { exam_type := res.2, questions := final, chunks_processed := chunks.length }

end AiAnalyzer

namespace AppPy

/-- A question as extracted by `extract_pdf` (fields read by
`ai_analyze`). -/
structure RawQ where
  number : Int
  text : String
  deriving DecidableEq, Repr

/-- The question payload `q_text` built by `ai_analyze`: only the first
50 questions are included, each question's text truncated to its first
500 characters and rendered as `"Q<number>: <text>\n"`. The function
issues exactly one request per call with this payload (its retry loop
re-sends the same payload). -/
def q_text (questions : List RawQ) : String :=
  (questions.take 50).foldl
    (fun acc q => acc ++ "Q" ++ toString q.number ++ ": " ++ strTake q.text 500 ++ "\n") ""

end AppPy

section FoldLemmas

open SubtopicMatcher

/-- Folding over a flatMap is the nested fold. -/
theorem listFoldl_flatMap (g : β → List γ) (f : δ → γ → δ) :
    ∀ (l : List β) (b : δ),
      (l.flatMap g).foldl f b = l.foldl (fun b x => (g x).foldl f b) b := by
  intro l
  induction l with
  | nil => simp
  | cons a l ih => intro b; simp [List.foldl_append, ih]

/-- The best-so-far scan either returns its start value or the scored
image of some element of the list. -/
theorem bestFold_provenance (sc : α → ℚ) (rf : α → RefEntry) :
    ∀ (l : List α) (b : Option RefEntry × ℚ),
      l.foldl (bestStep sc rf) b = b ∨
      ∃ x ∈ l, l.foldl (bestStep sc rf) b = (some (rf x), sc x) := by
  intro l
  induction l with
  | nil => intro b; exact Or.inl rfl
  | cons a l ih =>
    intro b
    rw [List.foldl_cons]
    by_cases h : b.2 < sc a
    · have hstep : bestStep sc rf b a = (some (rf a), sc a) := by
        simp [bestStep, h]
      rw [hstep]
      rcases ih (some (rf a), sc a) with h1 | ⟨x, hx, h2⟩
      · exact Or.inr ⟨a, List.mem_cons_self a l, h1⟩
      · exact Or.inr ⟨x, List.mem_cons_of_mem a hx, h2⟩
    · have hstep : bestStep sc rf b a = b := by
        simp [bestStep, h]
      rw [hstep]
      rcases ih b with h1 | ⟨x, hx, h2⟩
      · exact Or.inl h1
      · exact Or.inr ⟨x, List.mem_cons_of_mem a hx, h2⟩

/-- A best-so-far scan that starts with a recorded match keeps one. -/
theorem bestFold_isSome (sc : α → ℚ) (rf : α → RefEntry) :
    ∀ (l : List α) (b : Option RefEntry × ℚ),
      b.1.isSome → (l.foldl (bestStep sc rf) b).1.isSome := by
  intro l
  induction l with
  | nil => intro b hb; exact hb
  | cons a l ih =>
    intro b hb
    rw [List.foldl_cons]
    by_cases h : b.2 < sc a
    · exact ih _ (by simp [bestStep, h])
    · exact ih _ (by simpa [bestStep, h] using hb)

/-- Starting from `(none, s)` with `s ≥ 0`, the scan records no match
exactly when every element scores at most `s`. -/
theorem bestFold_none_iff (sc : α → ℚ) (rf : α → RefEntry) :
    ∀ (l : List α) (s : ℚ),
      (l.foldl (bestStep sc rf) (none, s)).1 = none ↔ ∀ x ∈ l, sc x ≤ s := by
  intro l
  induction l with
  | nil => intro s; simp
  | cons a l ih =>
    intro s
    rw [List.foldl_cons]
    by_cases h : s < sc a
    · have hstep : bestStep sc rf (none, s) a = (some (rf a), sc a) := by
        simp [bestStep, h]
      rw [hstep]
      constructor
      · intro hnone
        have := bestFold_isSome sc rf l (some (rf a), sc a) (by simp)
        simp [hnone] at this
      · intro hall
        exact absurd (hall a (List.mem_cons_self a l)) (by simpa using h)
    · have hstep : bestStep sc rf (none, s) a = (none, s) := by
        simp [bestStep, h]
      rw [hstep, ih]
      constructor
      · intro hall x hx
        rcases List.mem_cons.mp hx with rfl | hx
        · exact le_of_not_lt h
        · exact hall x hx
      · intro hall x hx
        exact hall x (List.mem_cons_of_mem a hx)

/-- A scan that records no match returns its start value unchanged. -/
theorem bestFold_none_fixed (sc : α → ℚ) (rf : α → RefEntry)
    (l : List α) (b : Option RefEntry × ℚ)
    (h : (l.foldl (bestStep sc rf) b).1 = none) :
    l.foldl (bestStep sc rf) b = b := by
  rcases bestFold_provenance sc rf l b with h1 | ⟨x, _, h2⟩
  · exact h1
  · rw [h2] at h; simp at h

end FoldLemmas

namespace SubtopicMatcher

/-- The flattened (query, candidate) pair list scanned by the module's
`match_subtopic`, in loop order (queries outer, candidates inner). -/
def scanPairs (refs : List RefEntry) (ai_subtopic ai_topic : String) :
    List (String × (RefEntry × String)) :=
  (queriesOf ai_subtopic ai_topic).flatMap
    (fun q => (candidatesOf refs).map (Prod.mk q))

/-- The score of one flattened pair, as computed inside the scan. -/
def pairScore (env : Env) (p : String × (RefEntry × String)) : ℚ :=
  env.score (strLower p.1) (strLower p.2.2)

/-- The reference row of one flattened pair. -/
def pairRef (p : String × (RefEntry × String)) : RefEntry :=
  p.2.1

/-- Every candidate comes from a reference row. -/
theorem mem_candidatesOf {refs : List RefEntry} {c : RefEntry × String}
    (h : c ∈ candidatesOf refs) : c.1 ∈ refs := by
  simp only [candidatesOf, List.mem_flatMap] at h
  obtain ⟨r, hr, hc⟩ := h
  simp only [List.mem_cons, List.mem_singleton] at hc
  rcases hc with rfl | hc
  · exact hr
  · rcases hc with rfl | hc
    · exact hr
    · simp at hc

/-- The nested query/candidate scan equals the single scan of the
flattened pair list. -/
theorem matcher_fold_flat (env : Env) (refs : List RefEntry)
    (ai_subtopic ai_topic : String) (b : Option RefEntry × ℚ) :
    (queriesOf ai_subtopic ai_topic).foldl
      (fun best query => (candidatesOf refs).foldl
        (bestStep (fun cand => env.score (strLower query) (strLower cand.2)) Prod.fst) best) b
    = (scanPairs refs ai_subtopic ai_topic).foldl
        (bestStep (pairScore env) pairRef) b := by
  rw [scanPairs, listFoldl_flatMap]
  have h : (fun (best : Option RefEntry × ℚ) (q : String) =>
        ((candidatesOf refs).map (Prod.mk q)).foldl (bestStep (pairScore env) pairRef) best)
      = fun best query => (candidatesOf refs).foldl
          (bestStep (fun cand => env.score (strLower query) (strLower cand.2)) Prod.fst) best := by
    funext best q
    rw [List.foldl_map]
    rfl
  rw [h]

/-- Pair membership in the flattened scan list. -/
theorem mem_scanPairs_iff {refs : List RefEntry} {ai_subtopic ai_topic : String}
    {p : String × (RefEntry × String)} :
    p ∈ scanPairs refs ai_subtopic ai_topic ↔
      p.1 ∈ queriesOf ai_subtopic ai_topic ∧ p.2 ∈ candidatesOf refs := by
  constructor
  · intro h
    simp only [scanPairs, List.mem_flatMap, List.mem_map] at h
    obtain ⟨q, hq, c, hc, rfl⟩ := h
    exact ⟨hq, hc⟩
  · intro ⟨hq, hc⟩
    simp only [scanPairs, List.mem_flatMap, List.mem_map]
    exact ⟨p.1, hq, p.2, hc, rfl⟩

end SubtopicMatcher

namespace AppPy

open SubtopicMatcher

/-- The flattened (ref, text, query) triple list scanned by `app.py`'s
`match_subtopic`, in loop order (refs outer, texts, then queries). -/
def scanTriples (refs : List RefEntry) (ai_subtopic ai_topic : String) :
    List (RefEntry × String × String) :=
  refs.flatMap (fun r =>
    [r.subtopic_name, r.unit_name ++ ": " ++ r.subtopic_name].flatMap (fun t =>
      [ai_subtopic, ai_topic ++ ": " ++ ai_subtopic, ai_topic ++ " " ++ ai_subtopic].map
        (fun q => (r, t, q))))

/-- The score of one flattened triple, as computed inside the scan. -/
def tripleScore (env : Env) (x : RefEntry × String × String) : ℚ :=
  env.score (strLower x.2.2) (strLower x.2.1)

/-- The reference row of one flattened triple. -/
def tripleRef (x : RefEntry × String × String) : RefEntry :=
  x.1

/-- The nested ref/text/query scan equals the single scan of the
flattened triple list. -/
theorem app_fold_flat (env : Env) (refs : List RefEntry)
    (ai_subtopic ai_topic : String) (b : Option RefEntry × ℚ) :
    refs.foldl
      (fun best r =>
        [r.subtopic_name, r.unit_name ++ ": " ++ r.subtopic_name].foldl
          (fun best text =>
            [ai_subtopic, ai_topic ++ ": " ++ ai_subtopic, ai_topic ++ " " ++ ai_subtopic].foldl
              (bestStep (fun query => env.score (strLower query) (strLower text))
                (fun _ => r)) best)
          best)
      b
    = (scanTriples refs ai_subtopic ai_topic).foldl
        (bestStep (tripleScore env) tripleRef) b := by
  rw [scanTriples, listFoldl_flatMap]
  have h : (fun (best : Option RefEntry × ℚ) (r : RefEntry) =>
        ([r.subtopic_name, r.unit_name ++ ": " ++ r.subtopic_name].flatMap (fun t =>
          [ai_subtopic, ai_topic ++ ": " ++ ai_subtopic, ai_topic ++ " " ++ ai_subtopic].map
            (fun q => (r, t, q)))).foldl (bestStep (tripleScore env) tripleRef) best)
      = fun best r =>
          [r.subtopic_name, r.unit_name ++ ": " ++ r.subtopic_name].foldl
            (fun best text =>
              [ai_subtopic, ai_topic ++ ": " ++ ai_subtopic, ai_topic ++ " " ++ ai_subtopic].foldl
                (bestStep (fun query => env.score (strLower query) (strLower text))
                  (fun _ => r)) best)
            best := by
    funext best r
    rw [listFoldl_flatMap]
    have h2 : (fun (b : Option RefEntry × ℚ) (t : String) =>
          ([ai_subtopic, ai_topic ++ ": " ++ ai_subtopic, ai_topic ++ " " ++ ai_subtopic].map
            (fun q => (r, t, q))).foldl (bestStep (tripleScore env) tripleRef) b)
        = fun b t =>
            [ai_subtopic, ai_topic ++ ": " ++ ai_subtopic, ai_topic ++ " " ++ ai_subtopic].foldl
              (bestStep (fun query => env.score (strLower query) (strLower t)) (fun _ => r)) b := by
      funext b t
      rw [List.foldl_map]
      rfl
    rw [h2]
  rw [h]

/-- Every triple's reference row comes from the taxonomy. -/
theorem mem_scanTriples_ref {refs : List RefEntry} {ai_subtopic ai_topic : String}
    {x : RefEntry × String × String}
    (h : x ∈ scanTriples refs ai_subtopic ai_topic) : x.1 ∈ refs := by
  simp only [scanTriples, List.mem_flatMap, List.mem_map] at h
  obtain ⟨r, hr, t, ht, q, hq, rfl⟩ := h
  exact hr

end AppPy

namespace SubtopicMatcher

/-- The module's `match_subtopic` rewritten over the flattened scan. -/
theorem matcher_eq (env : Env) (ai_subtopic ai_topic exam_type subject : String) :
    match_subtopic env ai_subtopic ai_topic exam_type subject =
      (if (env.load_reference exam_type subject).isEmpty then
        { subtopic_number := "N/A", matched_name := none, confidence := 0, unit_name := none }
       else
        match (scanPairs (env.load_reference exam_type subject) ai_subtopic ai_topic).foldl
            (bestStep (pairScore env) pairRef) (none, 0) with
        | (some r, s) =>
          { subtopic_number := r.subtopic_number, matched_name := some r.subtopic_name,
            confidence := s, unit_name := some r.unit_name }
        | (none, _) =>
          { subtopic_number := "N/A", matched_name := none, confidence := 0,
            unit_name := none }) := by
  rw [match_subtopic]
  by_cases h : (env.load_reference exam_type subject).isEmpty <;>
    simp [h, matcher_fold_flat]

/-- Behaviour of the module's `match_subtopic`: confidence stays in
[0,100]; any returned subtopic number comes from the taxonomy; and the
result is N/A exactly when the taxonomy is empty or no (query,
candidate) pair scores above zero — the 60 threshold plays no part. -/
theorem matcher_subtopic_spec (env : Env) (ai_subtopic ai_topic exam_type subject : String)
    (hs : ∀ a b, 0 ≤ env.score a b ∧ env.score a b ≤ 100)
    (hna : ∀ r ∈ env.load_reference exam_type subject, r.subtopic_number ≠ "N/A") :
    (0 ≤ (match_subtopic env ai_subtopic ai_topic exam_type subject).confidence ∧
      (match_subtopic env ai_subtopic ai_topic exam_type subject).confidence ≤ 100) ∧
    ((match_subtopic env ai_subtopic ai_topic exam_type subject).subtopic_number ≠ "N/A" →
      (match_subtopic env ai_subtopic ai_topic exam_type subject).subtopic_number ∈
        (env.load_reference exam_type subject).map RefEntry.subtopic_number) ∧
    ((match_subtopic env ai_subtopic ai_topic exam_type subject).subtopic_number = "N/A" ↔
      env.load_reference exam_type subject = [] ∨
      ∀ q ∈ queriesOf ai_subtopic ai_topic,
        ∀ c ∈ candidatesOf (env.load_reference exam_type subject),
          env.score (strLower q) (strLower c.2) = 0) := by
  rw [matcher_eq]
  by_cases hempty : (env.load_reference exam_type subject).isEmpty
  · have hnil : env.load_reference exam_type subject = [] := by
      simpa [List.isEmpty_iff] using hempty
    simp [hempty, hnil]
  · have hnil : env.load_reference exam_type subject ≠ [] := by
      simpa [List.isEmpty_iff] using hempty
    simp only [hempty, if_false, Bool.false_eq_true]
    have hzero_iff :
        (∀ x ∈ scanPairs (env.load_reference exam_type subject) ai_subtopic ai_topic,
            pairScore env x ≤ 0) ↔
        (∀ q ∈ queriesOf ai_subtopic ai_topic,
          ∀ c ∈ candidatesOf (env.load_reference exam_type subject),
            env.score (strLower q) (strLower c.2) = 0) := by
      constructor
      · intro hall q hq c hc
        have hx : (q, c) ∈ scanPairs (env.load_reference exam_type subject)
            ai_subtopic ai_topic := mem_scanPairs_iff.mpr ⟨hq, hc⟩
        have h1 := hall (q, c) hx
        have h2 := (hs (strLower q) (strLower c.2)).1
        exact le_antisymm (by simpa [pairScore] using h1) h2
      · intro hall x hx
        obtain ⟨hq, hc⟩ := mem_scanPairs_iff.mp hx
        have := hall x.1 hq x.2 hc
        simp [pairScore, this]
    rcases bestFold_provenance (pairScore env) pairRef
        (scanPairs (env.load_reference exam_type subject) ai_subtopic ai_topic)
        (none, 0) with hfix | ⟨x, hx, hsome⟩
    · rw [hfix]
      have hall : ∀ y ∈ scanPairs (env.load_reference exam_type subject)
          ai_subtopic ai_topic, pairScore env y ≤ 0 := by
        have := (bestFold_none_iff (pairScore env) pairRef
          (scanPairs (env.load_reference exam_type subject) ai_subtopic ai_topic) 0).mp
        simp only [hfix] at this
        exact this (by simp)
      simp only []
      refine ⟨⟨le_refl 0, by norm_num⟩, by simp, ?_⟩
      simp only [true_iff]
      exact Or.inr (hzero_iff.mp hall)
    · rw [hsome]
      have hmem : pairRef x ∈ env.load_reference exam_type subject :=
        mem_candidatesOf (mem_scanPairs_iff.mp hx).2
    
      refine ⟨⟨(hs _ _).1, (hs _ _).2⟩, ?_, ?_⟩
      · intro _
        exact List.mem_map.mpr ⟨pairRef x, hmem, rfl⟩
      · constructor
        · intro hN
          exact absurd hN (hna _ hmem)
        · rintro (hnil2 | hall)
          · exact absurd hnil2 hnil
          · exfalso
            have hle : ∀ y ∈ scanPairs (env.load_reference exam_type subject)
                ai_subtopic ai_topic, pairScore env y ≤ 0 := by
              intro y hy
              obtain ⟨hq, hc⟩ := mem_scanPairs_iff.mp hy
              have := hall y.1 hq y.2 hc
              simp [pairScore, this]
            have := (bestFold_none_iff (pairScore env) pairRef
              (scanPairs (env.load_reference exam_type subject) ai_subtopic ai_topic) 0).mpr hle
            rw [hsome] at this
            simp at this
end SubtopicMatcher

namespace AppPy

open SubtopicMatcher

/-- `app.py`'s `match_subtopic` rewritten over the flattened scan. -/
theorem app_eq (env : Env) (ai_subtopic ai_topic exam_type subject : String) :
    match_subtopic env ai_subtopic ai_topic exam_type subject =
      (if (env.load_reference exam_type subject).isEmpty then
        { subtopic_number := "N/A", matched_name := none, confidence := 0, unit_name := none }
       else
        match (scanTriples (env.load_reference exam_type subject) ai_subtopic ai_topic).foldl
            (bestStep (tripleScore env) tripleRef) (none, 0) with
        | (some r, s) =>
          if 60 ≤ s then
            { subtopic_number := r.subtopic_number, matched_name := some r.subtopic_name,
              confidence := s, unit_name := some r.unit_name }
          else
            { subtopic_number := "N/A", matched_name := none, confidence := s,
              unit_name := none }
        | (none, s) =>
          { subtopic_number := "N/A", matched_name := none, confidence := s,
            unit_name := none }) := by
  by_cases h : (env.load_reference exam_type subject).isEmpty
  · simp [match_subtopic, h]
  · simp only [match_subtopic, h, Bool.false_eq_true, if_false]
    rw [app_fold_flat]

/-- Behaviour of `app.py`'s `match_subtopic`: confidence stays in
[0,100]; the result is N/A exactly when the best score is below the 60
threshold (confidence still carrying that best score); at or above the
threshold the returned subtopic number comes from the taxonomy. -/
theorem app_subtopic_spec (env : Env) (ai_subtopic ai_topic exam_type subject : String)
    (hs : ∀ a b, 0 ≤ env.score a b ∧ env.score a b ≤ 100)
    (hna : ∀ r ∈ env.load_reference exam_type subject, r.subtopic_number ≠ "N/A") :
    (0 ≤ (match_subtopic env ai_subtopic ai_topic exam_type subject).confidence ∧
      (match_subtopic env ai_subtopic ai_topic exam_type subject).confidence ≤ 100) ∧
    ((match_subtopic env ai_subtopic ai_topic exam_type subject).subtopic_number = "N/A" ↔
      (match_subtopic env ai_subtopic ai_topic exam_type subject).confidence < 60) ∧
    (60 ≤ (match_subtopic env ai_subtopic ai_topic exam_type subject).confidence →
      (match_subtopic env ai_subtopic ai_topic exam_type subject).subtopic_number ∈
        (env.load_reference exam_type subject).map RefEntry.subtopic_number) := by
  rw [app_eq]
  by_cases hempty : (env.load_reference exam_type subject).isEmpty
  · simp [hempty]
  · simp only [hempty, if_false, Bool.false_eq_true]
    rcases bestFold_provenance (tripleScore env) tripleRef
        (scanTriples (env.load_reference exam_type subject) ai_subtopic ai_topic)
        (none, 0) with hfix | ⟨x, hx, hsome⟩
    · rw [hfix]
      refine ⟨⟨le_refl 0, by norm_num⟩, by norm_num, by norm_num⟩
    · rw [hsome]
      have hmem : tripleRef x ∈ env.load_reference exam_type subject :=
        mem_scanTriples_ref hx
      by_cases h60 : 60 ≤ tripleScore env x
      · simp only [h60, if_true, ite_true]
        refine ⟨⟨(hs _ _).1, (hs _ _).2⟩, ?_, ?_⟩
        · constructor
          · intro hN
            exact absurd hN (hna _ hmem)
          · intro hlt
            exact absurd h60 (not_le.mpr hlt)
        · intro _
          exact List.mem_map.mpr ⟨tripleRef x, hmem, rfl⟩
      · simp only [h60, if_false, ite_false]
        refine ⟨⟨(hs _ _).1, (hs _ _).2⟩, ?_, ?_⟩
        · simp [not_le.mp h60]
        · intro h
          exact h.elim


end AppPy

/-- A one-entry taxonomy used for concrete evaluations. -/
def cexRefs : List RefEntry :=
  [{ subtopic_number := "1.1", subtopic_name := "abxy", unit_name := "u" }]

/-- A concrete environment: the real token-sort-ratio model as the
similarity primitive, and a taxonomy present only for JEE/Physics. -/
def cexEnv : Env :=
  { score := tokenSortRatio,
    load_reference := fun et s => if et = "JEE" ∧ s = "Physics" then cexRefs else [] }

/-- A concrete environment whose similarity primitive scores every pair
50 and whose taxonomy is present for every key. -/
def constEnv : Env :=
  { score := fun _ _ => 50,
    load_reference := fun _ _ => cexRefs }

/-- C1: counterexample. For the subtopic-matcher module's
`match_subtopic`, with the token-sort-ratio primitive and the JEE/Physics
taxonomy loaded, the query ("abcd", "zz") scores below 60 on every
(query, candidate) pair — the best being 160/3 ≈ 53.3 — yet the returned
`subtopic_number` is the matched entry's "1.1", not "N/A", contradicting
the claim that `subtopic_number` is "N/A" exactly when no score reached
the acceptance threshold of 60. -/
theorem C1_counterexample :
    (SubtopicMatcher.match_subtopic cexEnv "abcd" "zz" "JEE" "Physics").confidence < 60 ∧
    (SubtopicMatcher.match_subtopic cexEnv "abcd" "zz" "JEE" "Physics").subtopic_number ≠ "N/A" ∧
    ∀ q ∈ SubtopicMatcher.queriesOf "abcd" "zz",
      ∀ c ∈ SubtopicMatcher.candidatesOf (cexEnv.load_reference "JEE" "Physics"),
        cexEnv.score (strLower q) (strLower c.2) < 60 := by
  decide

/-- C1 (amended): for every loaded taxonomy whose entries do not
themselves carry the number "N/A" and every free-text query, both
variants return a confidence in [0,100]. The subtopic-matcher module's
`match_subtopic` returns a `subtopic_number` drawn from the taxonomy
whenever it is not "N/A", but "N/A" is produced exactly when the
taxonomy is empty or every (query, candidate) similarity score is 0 —
the acceptance threshold of 60 is not applied there. `app.py`'s
`match_subtopic` satisfies the original claim: `subtopic_number` is
"N/A" exactly when the best score is below 60 (confidence still carrying
that best score), and at confidence ≥ 60 the subtopic_number is drawn
from the taxonomy. -/
theorem C1_amended (env : Env) (ai_subtopic ai_topic exam_type subject : String)
    (hs : ∀ a b, 0 ≤ env.score a b ∧ env.score a b ≤ 100)
    (hna : ∀ r ∈ env.load_reference exam_type subject, r.subtopic_number ≠ "N/A") :
    ((0 ≤ (SubtopicMatcher.match_subtopic env ai_subtopic ai_topic exam_type subject).confidence ∧
      (SubtopicMatcher.match_subtopic env ai_subtopic ai_topic exam_type subject).confidence ≤ 100) ∧
    ((SubtopicMatcher.match_subtopic env ai_subtopic ai_topic exam_type subject).subtopic_number ≠ "N/A" →
      (SubtopicMatcher.match_subtopic env ai_subtopic ai_topic exam_type subject).subtopic_number ∈
        (env.load_reference exam_type subject).map RefEntry.subtopic_number) ∧
    ((SubtopicMatcher.match_subtopic env ai_subtopic ai_topic exam_type subject).subtopic_number = "N/A" ↔
      env.load_reference exam_type subject = [] ∨
      ∀ q ∈ SubtopicMatcher.queriesOf ai_subtopic ai_topic,
        ∀ c ∈ SubtopicMatcher.candidatesOf (env.load_reference exam_type subject),
          env.score (strLower q) (strLower c.2) = 0)) ∧
    ((0 ≤ (AppPy.match_subtopic env ai_subtopic ai_topic exam_type subject).confidence ∧
      (AppPy.match_subtopic env ai_subtopic ai_topic exam_type subject).confidence ≤ 100) ∧
    ((AppPy.match_subtopic env ai_subtopic ai_topic exam_type subject).subtopic_number = "N/A" ↔
      (AppPy.match_subtopic env ai_subtopic ai_topic exam_type subject).confidence < 60) ∧
    (60 ≤ (AppPy.match_subtopic env ai_subtopic ai_topic exam_type subject).confidence →
      (AppPy.match_subtopic env ai_subtopic ai_topic exam_type subject).subtopic_number ∈
        (env.load_reference exam_type subject).map RefEntry.subtopic_number)) :=
  ⟨SubtopicMatcher.matcher_subtopic_spec env ai_subtopic ai_topic exam_type subject hs hna,
   AppPy.app_subtopic_spec env ai_subtopic ai_topic exam_type subject hs hna⟩

/-- C1: witness. The amended theorem applied at a concrete environment
and query, its hypotheses discharged there. -/
theorem C1_witness :
    (0 ≤ (SubtopicMatcher.match_subtopic constEnv "x" "y" "JEE" "Physics").confidence ∧
      (SubtopicMatcher.match_subtopic constEnv "x" "y" "JEE" "Physics").confidence ≤ 100) ∧
    ((AppPy.match_subtopic constEnv "x" "y" "JEE" "Physics").subtopic_number = "N/A" ↔
      (AppPy.match_subtopic constEnv "x" "y" "JEE" "Physics").confidence < 60) :=
  ⟨(C1_amended constEnv "x" "y" "JEE" "Physics"
      (fun _ _ => ⟨by norm_num [constEnv], by norm_num [constEnv]⟩) (by decide)).1.1,
   (C1_amended constEnv "x" "y" "JEE" "Physics"
      (fun _ _ => ⟨by norm_num [constEnv], by norm_num [constEnv]⟩) (by decide)).2.2.1⟩

/-- C9: for every free-text query, when the loaded taxonomy for the
given (exam_type, subject) is empty — which is what `load_reference`
yields when the reference file is absent — `match_subtopic` returns
subtopic_number "N/A", confidence 0 and no matched name or unit name;
being a total function of its inputs, it raises nothing. -/
theorem C9_empty_taxonomy (env : Env) (ai_subtopic ai_topic exam_type subject : String)
    (h : env.load_reference exam_type subject = []) :
    SubtopicMatcher.match_subtopic env ai_subtopic ai_topic exam_type subject =
      { subtopic_number := "N/A", matched_name := none, confidence := 0, unit_name := none } := by
  simp [SubtopicMatcher.match_subtopic, h]

/-- C9: witness. The NEET/Biology taxonomy is absent from the concrete
environment, and the theorem evaluates there. -/
theorem C9_witness :
    SubtopicMatcher.match_subtopic cexEnv "a" "b" "NEET" "Biology" =
      { subtopic_number := "N/A", matched_name := none, confidence := 0, unit_name := none } :=
  C9_empty_taxonomy cexEnv "a" "b" "NEET" "Biology" (by decide)

/-- C3: per question, with the declared exam type drawn from the
two-valued enum, the sibling is the other member; when the primary
confidence reaches the threshold 60 no fallback result is adopted; when
it is below 60, the sibling taxonomy's result is adopted exactly when
its confidence is strictly higher, and otherwise the primary result
stands — the adopted result (all four attached fields) is always either
the primary or the single sibling result, so no further hop occurs. -/
theorem C3_fallback (env : Env) (exam_type : String) (q : SubtopicMatcher.MQIn)
    (h : exam_type = "JEE" ∨ exam_type = "NEET") :
    ((exam_type = "JEE" → SubtopicMatcher.sibling exam_type = "NEET") ∧
     (exam_type = "NEET" → SubtopicMatcher.sibling exam_type = "JEE")) ∧
    (SubtopicMatcher.FUZZY_MATCH_THRESHOLD ≤
        (SubtopicMatcher.match_subtopic env (q.subtopic_name.getD "") (q.topic.getD "")
          exam_type (q.subject.getD "Mathematics")).confidence →
      SubtopicMatcher.matchOne env exam_type q =
        SubtopicMatcher.attachResult q
          (SubtopicMatcher.match_subtopic env (q.subtopic_name.getD "") (q.topic.getD "")
            exam_type (q.subject.getD "Mathematics"))) ∧
    ((SubtopicMatcher.match_subtopic env (q.subtopic_name.getD "") (q.topic.getD "")
          exam_type (q.subject.getD "Mathematics")).confidence <
        SubtopicMatcher.FUZZY_MATCH_THRESHOLD →
      ((SubtopicMatcher.match_subtopic env (q.subtopic_name.getD "") (q.topic.getD "")
          (SubtopicMatcher.sibling exam_type) (q.subject.getD "Mathematics")).confidence >
        (SubtopicMatcher.match_subtopic env (q.subtopic_name.getD "") (q.topic.getD "")
          exam_type (q.subject.getD "Mathematics")).confidence →
        SubtopicMatcher.matchOne env exam_type q =
          SubtopicMatcher.attachResult q
            (SubtopicMatcher.match_subtopic env (q.subtopic_name.getD "") (q.topic.getD "")
              (SubtopicMatcher.sibling exam_type) (q.subject.getD "Mathematics")))) ∧
    ((SubtopicMatcher.match_subtopic env (q.subtopic_name.getD "") (q.topic.getD "")
          exam_type (q.subject.getD "Mathematics")).confidence <
        SubtopicMatcher.FUZZY_MATCH_THRESHOLD →
      ((SubtopicMatcher.match_subtopic env (q.subtopic_name.getD "") (q.topic.getD "")
          (SubtopicMatcher.sibling exam_type) (q.subject.getD "Mathematics")).confidence ≤
        (SubtopicMatcher.match_subtopic env (q.subtopic_name.getD "") (q.topic.getD "")
          exam_type (q.subject.getD "Mathematics")).confidence →
        SubtopicMatcher.matchOne env exam_type q =
          SubtopicMatcher.attachResult q
            (SubtopicMatcher.match_subtopic env (q.subtopic_name.getD "") (q.topic.getD "")
              exam_type (q.subject.getD "Mathematics")))) := by
  refine ⟨⟨?_, ?_⟩, ?_, ?_, ?_⟩
  · intro he; simp [SubtopicMatcher.sibling, he]
  · intro he
    rcases h with h | h
    · rw [h] at he; exact absurd he (by decide)
    · simp [SubtopicMatcher.sibling, h]
  · intro hge
    simp [SubtopicMatcher.matchOne, not_lt.mpr hge]
  · intro hlt halt
    simp [SubtopicMatcher.matchOne, hlt, halt]
  · intro hlt halt
    simp [SubtopicMatcher.matchOne, hlt, not_lt.mpr halt]

/-- C3: witness. With the constant-50 primitive both matches score 50:
the primary is below threshold, the sibling is not strictly better, and
the primary result is kept. -/
theorem C3_witness :
    SubtopicMatcher.matchOne constEnv "JEE" ⟨none, none, none⟩ =
      SubtopicMatcher.attachResult ⟨none, none, none⟩
        (SubtopicMatcher.match_subtopic constEnv "" "" "JEE" "Mathematics") :=
  (C3_fallback constEnv "JEE" ⟨none, none, none⟩ (Or.inl rfl)).2.2.2 (by decide) (by decide)

/-- C10: for every declared exam type other than exactly "JEE" —
"UNKNOWN" or any arbitrary override included — the cross-exam fallback
queries the "JEE" taxonomy as the sibling; "NEET" is the sibling only
when the declared exam type is exactly "JEE"; and the per-question
result is exactly the primary-or-"JEE"-fallback combination. -/
theorem C10_sibling (env : Env) (exam_type : String) (q : SubtopicMatcher.MQIn)
    (h : exam_type ≠ "JEE") :
    SubtopicMatcher.sibling exam_type = "JEE" ∧
    (∀ et : String, SubtopicMatcher.sibling et = "NEET" → et = "JEE") ∧
    SubtopicMatcher.matchOne env exam_type q =
      SubtopicMatcher.attachResult q
        (if (SubtopicMatcher.match_subtopic env (q.subtopic_name.getD "") (q.topic.getD "")
              exam_type (q.subject.getD "Mathematics")).confidence <
            SubtopicMatcher.FUZZY_MATCH_THRESHOLD then
          (if (SubtopicMatcher.match_subtopic env (q.subtopic_name.getD "") (q.topic.getD "")
                "JEE" (q.subject.getD "Mathematics")).confidence >
              (SubtopicMatcher.match_subtopic env (q.subtopic_name.getD "") (q.topic.getD "")
                exam_type (q.subject.getD "Mathematics")).confidence then
            SubtopicMatcher.match_subtopic env (q.subtopic_name.getD "") (q.topic.getD "")
              "JEE" (q.subject.getD "Mathematics")
          else
            SubtopicMatcher.match_subtopic env (q.subtopic_name.getD "") (q.topic.getD "")
              exam_type (q.subject.getD "Mathematics"))
        else
          SubtopicMatcher.match_subtopic env (q.subtopic_name.getD "") (q.topic.getD "")
            exam_type (q.subject.getD "Mathematics")) := by
  have hsib : SubtopicMatcher.sibling exam_type = "JEE" := by
    simp [SubtopicMatcher.sibling, h]
  refine ⟨hsib, ?_, ?_⟩
  · intro et hne
    by_contra hc
    simp [SubtopicMatcher.sibling, hc] at hne
  · simp only [SubtopicMatcher.matchOne, hsib]

/-- C10: witness. The theorem applied with the declared exam type
"UNKNOWN". -/
theorem C10_witness : SubtopicMatcher.sibling "UNKNOWN" = "JEE" :=
  (C10_sibling constEnv "UNKNOWN" ⟨none, none, none⟩ (by decide)).1

namespace AiAnalyzer

/-- Unfolding equation of `chunk_pages`. -/
theorem chunk_pages_unfold (l : List String) (k : Nat) :
    chunk_pages l k =
      if k = 0 then []
      else if l.isEmpty then [] else l.take k :: chunk_pages (l.drop k) k := by
  rw [chunk_pages]

/-- `chunk_pages` yields no chunks only for no pages (or a zero size). -/
theorem chunk_pages_eq_nil_iff (l : List String) (k : Nat) :
    chunk_pages l k = [] ↔ k = 0 ∨ l = [] := by
  constructor
  · intro h
    by_cases hk : k = 0
    · exact Or.inl hk
    · by_cases hl : l.isEmpty
      · exact Or.inr (by simpa [List.isEmpty_iff] using hl)
      · rw [chunk_pages_unfold] at h
        simp [hk, hl] at h
  · rintro (rfl | rfl) <;> simp [chunk_pages_unfold]

/-- Concatenating the chunks in order restores the page sequence. -/
theorem chunk_pages_join :
    ∀ (l : List String) (k : Nat), 0 < k → (chunk_pages l k).flatten = l := by
  intro l k
  induction l, k using chunk_pages.induct with
  | case1 l => intro h; exact absurd h (lt_irrefl 0)
  | case2 l k hk hl =>
    intro _
    have h : l = [] := by simpa [List.isEmpty_iff] using hl
    subst h
    simp [chunk_pages_unfold]
  | case3 l k hk hl ih =>
    intro hpos
    rw [chunk_pages_unfold]
    simp only [hk, hl, if_false, Bool.false_eq_true]
    rw [List.flatten_cons, ih hpos, List.take_append_drop]

/-- The number of chunks is the ceiling of pages over the chunk size. -/
theorem chunk_pages_length :
    ∀ (l : List String) (k : Nat), 0 < k →
      (chunk_pages l k).length = (l.length + (k - 1)) / k := by
  intro l k
  induction l, k using chunk_pages.induct with
  | case1 l => intro h; exact absurd h (lt_irrefl 0)
  | case2 l k hk hl =>
    intro _
    have h : l = [] := by simpa [List.isEmpty_iff] using hl
    subst h
    simp [chunk_pages_unfold, hk, Nat.div_eq_of_lt (show k - 1 < k by omega)]
  | case3 l k hk hl ih =>
    intro hpos
    have hl' : l ≠ [] := by simpa [List.isEmpty_iff] using hl
    have hlen : 1 ≤ l.length := List.length_pos.mpr hl'
    rw [chunk_pages_unfold]
    simp only [hk, hl, if_false, Bool.false_eq_true]
    rw [List.length_cons, ih hpos, List.length_drop]
    have h1 : l.length + (k - 1) = (l.length - 1) + k := by omega
    by_cases hle : k ≤ l.length
    · have h2 : l.length - k + (k - 1) = l.length - 1 := by omega
      rw [h2, h1, Nat.add_div_right _ hpos]
    · have h2 : l.length - k = 0 := by omega
      rw [h2, h1, Nat.add_div_right _ hpos]
      have h3 : (k - 1) / k = 0 := Nat.div_eq_of_lt (by omega)
      have h4 : (l.length - 1) / k = 0 := Nat.div_eq_of_lt (by omega)
      simp [h3, h4]
  
/-- Every chunk is nonempty and holds at most `k` pages. -/
theorem chunk_pages_mem :
    ∀ (l : List String) (k : Nat), ∀ c ∈ chunk_pages l k, c.length ≤ k ∧ c ≠ [] := by
  intro l k
  induction l, k using chunk_pages.induct with
  | case1 l => simp [chunk_pages_unfold]
  | case2 l k hk hl =>
    rw [chunk_pages_unfold]
    simp [hk, hl]
  | case3 l k hk hl ih =>
    rw [chunk_pages_unfold]
    simp only [hk, hl, if_false, Bool.false_eq_true]
    intro c hc
    rcases List.mem_cons.mp hc with rfl | hc
    · refine ⟨by simp, ?_⟩
      rw [Ne, List.take_eq_nil_iff]
      push_neg
      exact ⟨hk, by simpa [List.isEmpty_iff] using hl⟩
    · exact ih c hc

/-- Every chunk except the final one holds exactly `k` pages. -/
theorem chunk_pages_dropLast :
    ∀ (l : List String) (k : Nat), ∀ c ∈ (chunk_pages l k).dropLast, c.length = k := by
  intro l k
  induction l, k using chunk_pages.induct with
  | case1 l => simp [chunk_pages_unfold]
  | case2 l k hk hl =>
    rw [chunk_pages_unfold]
    simp [hk, hl]
  | case3 l k hk hl ih =>
    rw [chunk_pages_unfold]
    simp only [hk, hl, if_false, Bool.false_eq_true]
    by_cases hrest : chunk_pages (l.drop k) k = []
    · simp [hrest]
    · rw [List.dropLast_cons_of_ne_nil hrest]
      intro c hc
      rcases List.mem_cons.mp hc with rfl | hc
      · have hdrop : l.drop k ≠ [] := by
          intro hd
          exact hrest ((chunk_pages_eq_nil_iff _ _).mpr (Or.inr hd))
        have hkl : k ≤ l.length := by
          by_contra hlt
          exact hdrop (List.drop_eq_nil_iff.mpr (by omega))
        simp [List.length_take, hkl]
      · exact ih c hc

end AiAnalyzer

/-- C8: for every non-empty page list, `chunk_pages` with the default
size 8 yields ceiling(n/8) chunks whose in-order concatenation is
exactly the original sequence, every chunk nonempty with at most 8
pages, and every chunk but the final one with exactly 8. -/
theorem C8_chunk_pages (l : List String) (hl : l ≠ []) :
    (AiAnalyzer.chunk_pages l 8).length = (l.length + 7) / 8 ∧
    (AiAnalyzer.chunk_pages l 8).flatten = l ∧
    (∀ c ∈ AiAnalyzer.chunk_pages l 8, c.length ≤ 8 ∧ c ≠ []) ∧
    (∀ c ∈ (AiAnalyzer.chunk_pages l 8).dropLast, c.length = 8) :=
  ⟨AiAnalyzer.chunk_pages_length l 8 (by norm_num),
   AiAnalyzer.chunk_pages_join l 8 (by norm_num),
   AiAnalyzer.chunk_pages_mem l 8,
   AiAnalyzer.chunk_pages_dropLast l 8⟩

/-- C8: witness. 25 pages chunk into sizes 8, 8, 8, 1, and the theorem
applies there: 4 chunks whose concatenation restores the input. -/
theorem C8_witness :
    (AiAnalyzer.chunk_pages (List.replicate 25 "p") 8).length = 4 ∧
    (AiAnalyzer.chunk_pages (List.replicate 25 "p") 8).flatten = List.replicate 25 "p" ∧
    (AiAnalyzer.chunk_pages (List.replicate 25 "p") 8).map List.length = [8, 8, 8, 1] :=
  ⟨by
    have h := (C8_chunk_pages (List.replicate 25 "p") (by decide)).1
    simpa using h,
   (C8_chunk_pages (List.replicate 25 "p") (by decide)).2.1,
   by
    rw [AiAnalyzer.chunk_pages_unfold, AiAnalyzer.chunk_pages_unfold,
      AiAnalyzer.chunk_pages_unfold, AiAnalyzer.chunk_pages_unfold,
      AiAnalyzer.chunk_pages_unfold]
    decide⟩

namespace AiAnalyzer

/-- The exam-type-only part of `analyze`'s chunk loop. -/
def detectStep (classify : List String → RawResponse) (d : Option String)
    (c : List String) : Option String :=
  if needsDetection d then some ((classify c).exam_type.getD "UNKNOWN") else d

/-- The combined chunk loop splits into question concatenation and
exam-type detection. -/
theorem analyzeFold_split (classify : List String → RawResponse) :
    ∀ (chunks : List (List String)) (acc : List NormQ × Option String),
      chunks.foldl (analyzeStep classify) acc =
        (acc.1 ++ (chunks.map (fun c => parseQuestions (classify c).questions)).flatten,
         chunks.foldl (detectStep classify) acc.2) := by
  intro chunks
  induction chunks with
  | nil => intro acc; simp
  | cons c chunks ih =>
    intro acc
    rw [List.foldl_cons, List.foldl_cons, ih]
    simp [analyzeStep, detectStep, List.append_assoc]

/-- The questions returned by `analyze`: the concatenated per-chunk
normalized questions, renumbered exactly when more than one chunk was
produced. -/
theorem analyze_questions (pages : List String) (classify : List String → RawResponse)
    (et : Option String) :
    (analyze pages classify et).questions =
      (if 1 < (chunk_pages pages 8).length then
        renumber (((chunk_pages pages 8).map
          (fun c => parseQuestions (classify c).questions)).flatten)
       else
        ((chunk_pages pages 8).map
          (fun c => parseQuestions (classify c).questions)).flatten) := by
  simp [analyze, analyzeFold_split]

/-- The exam type returned by `analyze` is the detection fold over the
chunks. -/
theorem analyze_exam (pages : List String) (classify : List String → RawResponse)
    (et : Option String) :
    (analyze pages classify et).exam_type =
      (chunk_pages pages 8).foldl (detectStep classify) et := by
  simp [analyze, analyzeFold_split]

/-- `analyze` reports one processed chunk per chunk produced. -/
theorem analyze_chunks (pages : List String) (classify : List String → RawResponse)
    (et : Option String) :
    (analyze pages classify et).chunks_processed = (chunk_pages pages 8).length := rfl

/-- Renumbering preserves the number of questions. -/
theorem renumber_length (qs : List NormQ) : (renumber qs).length = qs.length := by
  simp [renumber, List.enum_length]

/-- The i-th renumbered question is the i-th input question with serial
number `i+1` and label `"Q." ++ (i+1)`. -/
theorem renumber_getElem (qs : List NormQ) (i : Nat) (h : i < (renumber qs).length) :
    (renumber qs)[i] =
      { qs.get ⟨i, by rw [renumber_length] at h; exact h⟩ with
        sno := (i : Int) + 1, question_label := "Q." ++ toString (i + 1) } := by
  simp only [renumber, List.get_eq_getElem] at h ⊢
  rw [List.getElem_map, List.getElem_enum]

end AiAnalyzer

/-- C4: if `analyze` produced more than one chunk, the question at
0-based position i of the concatenated output carries serial number
i+1 and label `"Q." ++ (i+1)`; if it produced exactly one chunk, the
output questions are exactly the normalized questions of that single
chunk's classification, untouched. -/
theorem C4_renumbering (pages : List String)
    (classify : List String → AiAnalyzer.RawResponse) (et : Option String) :
    (1 < (AiAnalyzer.analyze pages classify et).chunks_processed →
      ∀ (i : Nat) (h : i < (AiAnalyzer.analyze pages classify et).questions.length),
        ((AiAnalyzer.analyze pages classify et).questions[i].sno = (i : Int) + 1 ∧
         (AiAnalyzer.analyze pages classify et).questions[i].question_label =
           "Q." ++ toString (i + 1))) ∧
    ((AiAnalyzer.analyze pages classify et).chunks_processed = 1 →
      ∀ c : List String, AiAnalyzer.chunk_pages pages 8 = [c] →
        (AiAnalyzer.analyze pages classify et).questions =
          AiAnalyzer.parseQuestions (classify c).questions) := by
  constructor
  · intro hmulti i
    rw [AiAnalyzer.analyze_chunks] at hmulti
    rw [AiAnalyzer.analyze_questions, if_pos hmulti]
    intro h
    rw [AiAnalyzer.renumber_getElem]
    exact ⟨rfl, rfl⟩
  · intro hone c hc
    rw [AiAnalyzer.analyze_questions, hc]
    simp

/-- A concrete classifier response fixture: one well-formed question. -/
def oneQ : AiAnalyzer.RawJsonQ :=
  { sno := some 7, question_text := some "t", subject := some "s", topic := some "t",
    subtopic_name := some "n", difficulty := some "Easy", question_label := some "Q.7" }

/-- A concrete classifier returning the same single question for every
chunk, reporting exam type "JEE". -/
def oneQClassify : List String → AiAnalyzer.RawResponse :=
  fun _ => { exam_type := some "JEE", questions := [oneQ] }

/-- Nine concrete pages (two chunks at the default size 8). -/
def ninePages : List String := List.replicate 9 "p"

/-- The two chunks of the nine concrete pages. -/
theorem ninePages_chunks :
    AiAnalyzer.chunk_pages ninePages 8 = [List.replicate 8 "p", ["p"]] := by
  rw [ninePages, AiAnalyzer.chunk_pages_unfold, AiAnalyzer.chunk_pages_unfold,
    AiAnalyzer.chunk_pages_unfold]
  decide

/-- C4: witness. Nine pages make two chunks; with a classifier
returning one question per chunk, the question at position 1 of the
output carries serial number 2. -/
theorem C4_witness :
    1 < (AiAnalyzer.analyze ninePages oneQClassify none).questions.length ∧
    ((AiAnalyzer.analyze ninePages oneQClassify none).questions[1]?).map
      AiAnalyzer.NormQ.sno = some 2 := by
  have hmulti : 1 < (AiAnalyzer.analyze ninePages oneQClassify none).chunks_processed := by
    rw [AiAnalyzer.analyze_chunks, ninePages_chunks]
    decide
  have hlen : 1 < (AiAnalyzer.analyze ninePages oneQClassify none).questions.length := by
    rw [AiAnalyzer.analyze_questions, ninePages_chunks]
    simp [AiAnalyzer.renumber_length, AiAnalyzer.parseQuestions, oneQClassify]
  refine ⟨hlen, ?_⟩
  have h := (C4_renumbering ninePages oneQClassify none).1 hmulti 1 hlen
  rw [List.getElem?_eq_getElem hlen, Option.map_some', h.1]
  decide

namespace AiAnalyzer

/-- Once a held exam type no longer needs detection, later chunks never
overwrite it. -/
theorem detect_stable (classify : List String → RawResponse) :
    ∀ (chunks : List (List String)) (d : Option String),
      needsDetection d = false → chunks.foldl (detectStep classify) d = d := by
  intro chunks
  induction chunks with
  | nil => intro d _; rfl
  | cons c chunks ih =>
    intro d hd
    rw [List.foldl_cons]
    have hstep : detectStep classify d c = d := by
      simp [detectStep, hd]
    rw [hstep, ih d hd]

end AiAnalyzer

/-- A classifier fixture that reports "UNKNOWN" on the full first chunk
and "JEE" on any shorter chunk. -/
def unknownThenJee : List String → AiAnalyzer.RawResponse :=
  fun c =>
    if c.length = 8 then { exam_type := some "UNKNOWN", questions := [] }
    else { exam_type := some "JEE", questions := [] }

/-- C7: counterexample. With no exam type supplied and nine pages (two
chunks), the first chunk's classification reports "UNKNOWN", yet the
orchestrator returns the second chunk's differing report "JEE" — the
first chunk's reported exam type was overwritten by a later chunk,
contradicting the claim that the first chunk's report is adopted and
never overwritten. -/
theorem C7_counterexample :
    (unknownThenJee (List.replicate 8 "p")).exam_type = some "UNKNOWN" ∧
    (unknownThenJee ["p"]).exam_type = some "JEE" ∧
    (AiAnalyzer.analyze ninePages unknownThenJee none).exam_type = some "JEE" := by
  refine ⟨by decide, by decide, ?_⟩
  rw [AiAnalyzer.analyze_exam, ninePages_chunks]
  decide

/-- C7 (amended): if the exam type was not supplied, or was empty or
"UNKNOWN", the orchestrator adopts the report of the first chunk
whenever that report (with "UNKNOWN" substituted for an absent one) is
non-empty and differs from "UNKNOWN", and no later chunk overwrites it;
a first-chunk report that is missing, empty, or "UNKNOWN" is only a
provisional value that later chunks may overwrite. -/
theorem C7_amended (pages : List String) (classify : List String → AiAnalyzer.RawResponse)
    (et : Option String) (h1 : AiAnalyzer.needsDetection et = true)
    (c : List String) (rest : List (List String))
    (hch : AiAnalyzer.chunk_pages pages 8 = c :: rest)
    (r : String) (hr : (classify c).exam_type.getD "UNKNOWN" = r)
    (hval : AiAnalyzer.needsDetection (some r) = false) :
    (AiAnalyzer.analyze pages classify et).exam_type = some r := by
  rw [AiAnalyzer.analyze_exam, hch, List.foldl_cons]
  have hstep : AiAnalyzer.detectStep classify et c = some r := by
    simp [AiAnalyzer.detectStep, h1, hr]
  rw [hstep, AiAnalyzer.detect_stable classify rest (some r) hval]

/-- C7: witness. With a first chunk reporting "JEE", the orchestrator
returns "JEE" even though the second chunk is also classified. -/
theorem C7_witness :
    (AiAnalyzer.analyze ninePages oneQClassify none).exam_type = some "JEE" :=
  C7_amended ninePages oneQClassify none (by decide) (List.replicate 8 "p") [["p"]]
    ninePages_chunks "JEE" (by decide) (by decide)

/-- A question record with every tracked field absent. -/
def badQ : AiAnalyzer.RawJsonQ :=
  { sno := none, question_text := none, subject := none, topic := none,
    subtopic_name := none, difficulty := none, question_label := none }

/-- C5: the per-question pass of `parse_ai_response` drops no question
and touches each question independently (a batch splits through it), and
the missing-field fill replaces each absent required field with its
placeholder — "Unknown" for the string fields, 0 for `sno` — instead of
failing; the pass is a total function, so one malformed question never
aborts the rest of the batch. -/
theorem C5_missing_fields (qs qs1 qs2 : List AiAnalyzer.RawJsonQ) (i : Nat)
    (h : i < qs.length) :
    (AiAnalyzer.parseQuestions qs).length = qs.length ∧
    AiAnalyzer.parseQuestions (qs1 ++ qs2) =
      AiAnalyzer.parseQuestions qs1 ++ AiAnalyzer.parseQuestions qs2 ∧
    (AiAnalyzer.parseQuestions qs).get
        ⟨i, by simpa [AiAnalyzer.parseQuestions] using h⟩ =
      AiAnalyzer.processQuestion (qs.get ⟨i, h⟩) ∧
    ((qs.get ⟨i, h⟩).sno = none →
      (AiAnalyzer.fillMissing (qs.get ⟨i, h⟩)).sno = some 0) ∧
    ((qs.get ⟨i, h⟩).question_text = none →
      (AiAnalyzer.fillMissing (qs.get ⟨i, h⟩)).question_text = some "Unknown") ∧
    ((qs.get ⟨i, h⟩).subject = none →
      (AiAnalyzer.fillMissing (qs.get ⟨i, h⟩)).subject = some "Unknown") ∧
    ((qs.get ⟨i, h⟩).topic = none →
      (AiAnalyzer.fillMissing (qs.get ⟨i, h⟩)).topic = some "Unknown") ∧
    ((qs.get ⟨i, h⟩).subtopic_name = none →
      (AiAnalyzer.fillMissing (qs.get ⟨i, h⟩)).subtopic_name = some "Unknown") ∧
    ((qs.get ⟨i, h⟩).difficulty = none →
      (AiAnalyzer.fillMissing (qs.get ⟨i, h⟩)).difficulty = some "Unknown") := by
  refine ⟨by simp [AiAnalyzer.parseQuestions],
    by simp [AiAnalyzer.parseQuestions],
    ?_, ?_, ?_, ?_, ?_, ?_, ?_⟩
  · simp [AiAnalyzer.parseQuestions, List.get_eq_getElem, List.getElem_map]
  · intro he; rw [List.get_eq_getElem] at he; simp [AiAnalyzer.fillMissing, he]
  · intro he; rw [List.get_eq_getElem] at he; simp [AiAnalyzer.fillMissing, he]
  · intro he; rw [List.get_eq_getElem] at he; simp [AiAnalyzer.fillMissing, he]
  · intro he; rw [List.get_eq_getElem] at he; simp [AiAnalyzer.fillMissing, he]
  · intro he; rw [List.get_eq_getElem] at he; simp [AiAnalyzer.fillMissing, he]
  · intro he; rw [List.get_eq_getElem] at he; simp [AiAnalyzer.fillMissing, he]

/-- C5: witness. The all-fields-absent question travels through the
pass, its serial number filled with 0. -/
theorem C5_witness :
    (AiAnalyzer.parseQuestions [badQ]).length = 1 ∧
    (AiAnalyzer.fillMissing badQ).sno = some 0 ∧
    (AiAnalyzer.fillMissing badQ).difficulty = some "Unknown" :=
  ⟨(C5_missing_fields [badQ] [] [] 0 (by decide)).1,
   (C5_missing_fields [badQ] [] [] 0 (by decide)).2.2.2.1 rfl,
   (C5_missing_fields [badQ] [] [] 0 (by decide)).2.2.2.2.2.2.2.2 rfl⟩

namespace AiAnalyzer

/-- The difficulty produced by the loop body, explicitly. -/
theorem processQuestion_difficulty (q : RawJsonQ) :
    (processQuestion q).difficulty =
      if pyCapitalize (strTrim ((fillMissing q).difficulty.getD "")) = "Easy" ∨
         pyCapitalize (strTrim ((fillMissing q).difficulty.getD "")) = "Moderate" ∨
         pyCapitalize (strTrim ((fillMissing q).difficulty.getD "")) = "Difficult"
      then pyCapitalize (strTrim ((fillMissing q).difficulty.getD ""))
      else "Moderate" := rfl

/-- Every normalized question's difficulty lies in the three-valued
set. -/
theorem processQuestion_difficulty_mem (q : RawJsonQ) :
    (processQuestion q).difficulty = "Easy" ∨
    (processQuestion q).difficulty = "Moderate" ∨
    (processQuestion q).difficulty = "Difficult" := by
  rw [processQuestion_difficulty]
  split
  · next hd => exact hd
  · exact Or.inr (Or.inl rfl)

/-- Renumbering changes no question's difficulty. -/
theorem mem_renumber_difficulty {q : NormQ} {qs : List NormQ}
    (h : q ∈ renumber qs) : ∃ q' ∈ qs, q.difficulty = q'.difficulty := by
  simp only [renumber, List.mem_map] at h
  obtain ⟨p, hp, rfl⟩ := h
  exact ⟨p.2, List.snd_mem_of_mem_enum hp, rfl⟩

end AiAnalyzer

/-- C6: every question produced by the per-question pass of
`parse_ai_response` — and hence every question in `analyze`'s output —
carries a difficulty in \x7bEasy, Moderate, Difficult\x7d; a missing
difficulty becomes "Moderate"; and a present one is trimmed,
capitalized, kept if it lands in the set and coerced to "Moderate"
otherwise. -/
theorem C6_difficulty :
    (∀ (qs : List AiAnalyzer.RawJsonQ) (q : AiAnalyzer.NormQ),
      q ∈ AiAnalyzer.parseQuestions qs →
        q.difficulty = "Easy" ∨ q.difficulty = "Moderate" ∨ q.difficulty = "Difficult") ∧
    (∀ (pages : List String) (classify : List String → AiAnalyzer.RawResponse)
        (et : Option String) (q : AiAnalyzer.NormQ),
      q ∈ (AiAnalyzer.analyze pages classify et).questions →
        q.difficulty = "Easy" ∨ q.difficulty = "Moderate" ∨ q.difficulty = "Difficult") ∧
    (∀ raw : AiAnalyzer.RawJsonQ, raw.difficulty = none →
      (AiAnalyzer.processQuestion raw).difficulty = "Moderate") ∧
    (∀ (raw : AiAnalyzer.RawJsonQ) (s : String), raw.difficulty = some s →
      (AiAnalyzer.processQuestion raw).difficulty =
        (if AiAnalyzer.pyCapitalize (strTrim s) = "Easy" ∨
            AiAnalyzer.pyCapitalize (strTrim s) = "Moderate" ∨
            AiAnalyzer.pyCapitalize (strTrim s) = "Difficult"
         then AiAnalyzer.pyCapitalize (strTrim s)
         else "Moderate")) := by
  have hparse : ∀ (qs : List AiAnalyzer.RawJsonQ) (q : AiAnalyzer.NormQ),
      q ∈ AiAnalyzer.parseQuestions qs →
        q.difficulty = "Easy" ∨ q.difficulty = "Moderate" ∨ q.difficulty = "Difficult" := by
    intro qs q hq
    simp only [AiAnalyzer.parseQuestions, List.mem_map] at hq
    obtain ⟨raw, _, rfl⟩ := hq
    exact AiAnalyzer.processQuestion_difficulty_mem raw
  refine ⟨hparse, ?_, ?_, ?_⟩
  · intro pages classify et q hq
    rw [AiAnalyzer.analyze_questions] at hq
    have hflat : ∀ q' : AiAnalyzer.NormQ,
        q' ∈ ((AiAnalyzer.chunk_pages pages 8).map
          (fun c => AiAnalyzer.parseQuestions (classify c).questions)).flatten →
          q'.difficulty = "Easy" ∨ q'.difficulty = "Moderate" ∨
          q'.difficulty = "Difficult" := by
      intro q' hq'
      simp only [List.mem_flatten, List.mem_map] at hq'
      obtain ⟨lq, ⟨c, _, rfl⟩, hmem⟩ := hq'
      exact hparse _ _ hmem
    by_cases hmulti : 1 < (AiAnalyzer.chunk_pages pages 8).length
    · rw [if_pos hmulti] at hq
      obtain ⟨q', hq', hdiff⟩ := AiAnalyzer.mem_renumber_difficulty hq
      rw [hdiff]
      exact hflat q' hq'
    · rw [if_neg hmulti] at hq
      exact hflat q hq
  · intro raw hnone
    rw [AiAnalyzer.processQuestion_difficulty]
    simp [AiAnalyzer.fillMissing, hnone]
    decide
  · intro raw s hs
    rw [AiAnalyzer.processQuestion_difficulty]
    simp [AiAnalyzer.fillMissing, hs]

/-- C6: witness. A question with an absent difficulty is normalized to
"Moderate", and a sibling with a messy but valid difficulty keeps its
normalized value. -/
theorem C6_witness :
    (AiAnalyzer.processQuestion badQ).difficulty = "Moderate" :=
  (C6_difficulty).2.2.1 badQ rfl

namespace AppPy

/-- One fold step of `q_text` adds the entry's length: 504 characters
plus the digits of the question number, when the question's text has at
least 500 characters. -/
theorem q_text_step_length (acc : String) (q : RawQ) (h : 500 ≤ q.text.length) :
    (acc ++ "Q" ++ toString q.number ++ ": " ++ strTake q.text 500 ++ "\n").length =
      acc.length + (toString q.number).length + 504 := by
  have htake : (strTake q.text 500).length = 500 := by
    have hd : q.text.length = q.text.data.length := rfl
    simp only [strTake, String.length, List.length_take]
    omega
  simp [String.length_append, htake]
  have h1 : ("Q" : String).length = 1 := rfl
  have h2 : (": " : String).length = 2 := rfl
  have h3 : ("\n" : String).length = 1 := rfl
  omega

/-- The question payload grows by at least 504 characters per question
whose text has at least 500 characters. -/
theorem q_text_fold_length_ge :
    ∀ (qs : List RawQ) (acc : String), (∀ q ∈ qs, 500 ≤ q.text.length) →
      acc.length + 504 * qs.length ≤
        (qs.foldl (fun acc q =>
          acc ++ "Q" ++ toString q.number ++ ": " ++ strTake q.text 500 ++ "\n") acc).length := by
  intro qs
  induction qs with
  | nil => intro acc _; simp
  | cons q qs ih =>
    intro acc hq
    rw [List.foldl_cons]
    have hstep := q_text_step_length acc q (hq q (List.mem_cons_self q qs))
    have hih := ih (acc ++ "Q" ++ toString q.number ++ ": " ++ strTake q.text 500 ++ "\n")
      (fun p hp => hq p (List.mem_cons_of_mem q hp))
    rw [hstep] at hih
    have hlen : (q :: qs).length = qs.length + 1 := rfl
    omega

end AppPy

/-- 51 one-character questions numbered 1..51. -/
def cex51 : List AppPy.RawQ :=
  (List.range 51).map (fun i => { number := (i : Int) + 1, text := "x" })

/-- A question with 500 characters of text. -/
def bigQ : AppPy.RawQ :=
  { number := 1, text := String.mk (List.replicate 500 'x') }

/-- 31 questions, each with 500 characters of text. -/
def cexBig : List AppPy.RawQ := List.replicate 31 bigQ

set_option maxRecDepth 40000 in
/-- C2: counterexample. `ai_analyze` builds a single question payload
and performs no character-budget chunking: with 51 questions the
payload is identical to the payload of the first 50 alone (the 51st
question is dropped, so not every input question is classified), and
with 31 questions of 500 characters each the single payload exceeds
15,000 characters instead of being split into chunks within that
budget. -/
theorem C2_counterexample :
    cex51.length = 51 ∧
    AppPy.q_text cex51 = AppPy.q_text cex51.dropLast ∧
    cexBig.length = 31 ∧
    15000 < (AppPy.q_text cexBig).length := by
  refine ⟨by decide, by decide, by simp [cexBig], ?_⟩
  have hall : ∀ q ∈ cexBig, 500 ≤ q.text.length := by
    intro q hq
    have hq' := List.eq_of_mem_replicate hq
    subst hq'
    have hd : bigQ.text.length = (List.replicate 500 'x').length := rfl
    simp [List.length_replicate] at hd
    omega
  have htake : cexBig.take 50 = cexBig :=
    List.take_of_length_le (by simp [cexBig])
  have hge := AppPy.q_text_fold_length_ge cexBig "" hall
  rw [AppPy.q_text, htake]
  have hlen : cexBig.length = 31 := by simp [cexBig]
  rw [hlen] at hge
  have hemp : ("" : String).length = 0 := rfl
  omega

/-- C2 (amended): `ai_analyze` sends one request whose question payload
holds only the first 50 questions, each text truncated to its first 500
characters; questions past the 50th never influence the payload (they
are dropped), and no 15,000-character chunking is applied, so the single
payload may exceed that budget. -/
theorem C2_amended (qs extra : List AppPy.RawQ) (h : 50 ≤ qs.length) :
    AppPy.q_text (qs ++ extra) = AppPy.q_text qs := by
  rw [AppPy.q_text, AppPy.q_text, List.take_append_of_le_length h]

/-- C2: witness. Appending a 51st question to 50 questions leaves the
payload unchanged. -/
theorem C2_witness :
    AppPy.q_text (List.replicate 50 { number := 1, text := "x" } ++
        [{ number := 51, text := "y" }]) =
      AppPy.q_text (List.replicate 50 { number := 1, text := "x" }) :=
  C2_amended (List.replicate 50 { number := 1, text := "x" })
    [{ number := 51, text := "y" }] (by decide)
